import Mathlib

/-!
Verification of the analytical core of the `nba_llm_analysis` repository.

The repository computes ranked statistical queries over a per-player-per-game
NBA fact table.  Two parallel implementations exist: an in-memory Polars one
(`src/analysis.py`, `src/data_loader.py`, `app/executor.py`) and a SQL one
(`src/analysis_sql.py`, `app/executor_sql.py`).  This file shallowly embeds
the functions the claims are about and proves or refutes each claim.

Conventions of the embedding:
* A nullable Polars/SQL column value is `Option Int`.
* Polars filter semantics: a row is kept only when the boolean expression
  evaluates to `true`; a null comparison result drops the row.
* Polars `pl.when(c).then(x).otherwise(y)`: a null condition takes the
  `otherwise` branch.
* A dataframe is a `List` of rows; `group_by(k).agg(f)` is embedded as
  mapping `f` over, for each distinct key, the rows with that key in frame
  order.
-/

namespace NbaLlm

/-! ### Dates and age derivation (`NBADataLoader.add_age_columns`, data_loader.py:441-452) -/

/-- A calendar date as the year/month/day components the source extracts with
`dt.year()`, `dt.month()`, `dt.day()`. -/
structure SimpleDate where
  year : Int
  month : Int
  day : Int
deriving DecidableEq, Repr

/-- data_loader.py:441-452: `age_at_game` is the year difference minus one when the
game's (month, day) precedes the birth (month, day) - the boolean is cast to Int64
and subtracted. -/
def ageAtGame (birth game : SimpleDate) : Int :=
  game.year - birth.year -
    (if game.month < birth.month ∨ (game.month = birth.month ∧ game.day < birth.day)
     then 1 else 0)

/-- Lexicographic order on calendar dates, used to state the floor-age property. -/
def dateLE (a b : SimpleDate) : Prop :=
  a.year < b.year ∨
    (a.year = b.year ∧
      (a.month < b.month ∨ (a.month = b.month ∧ a.day ≤ b.day)))

instance : DecidablePred fun p : SimpleDate × SimpleDate => dateLE p.1 p.2 := by
  intro p
  unfold dateLE
  infer_instance

/-- The date obtained by shifting a date by `n` whole years (the n-th birthday for a
birth date). -/
def addYears (d : SimpleDate) (n : Int) : SimpleDate :=
  { d with year := d.year + n }

/-! ### Fact-table builder: tracked stats, pre-tracking nulling, double flags
(`NBADataLoader`, data_loader.py) -/

/-- The statistics with a known tracking-start season (data_loader.py:19-29,
`STAT_START_SEASONS`). -/
inductive TrackedStat where
  | TRB | STL | BLK | ORB | DRB | TOV | threeP | threePA | plusMinus
deriving DecidableEq, Repr

/-- data_loader.py:19-29: the fixed per-statistic tracking-start season lookup
table `STAT_START_SEASONS`. -/
def statStartSeason : TrackedStat → Int
  | .TRB => 1950
  | .STL => 1973
  | .BLK => 1973
  | .ORB => 1973
  | .DRB => 1973
  | .TOV => 1977
  | .threeP => 1979
  | .threePA => 1979
  | .plusMinus => 1996

/-- A joined boxscore-with-game-metadata row as consumed by
`_nullify_pre_tracking_stats` and `_add_double_flags`.  `PTS` and `AST` have no
tracking-start season and are stored directly; the nine tracked statistics are
accessed through `trackedVal`. -/
structure FactRow where
  seasonStartYear : Option Int
  PTS : Option Int
  AST : Option Int
  trackedVal : TrackedStat → Option Int

/-- data_loader.py:357-372, `_nullify_pre_tracking_stats`: each tracked statistic
becomes null on rows whose `seasonStartYear` is strictly below its tracking-start
season; a null `seasonStartYear` makes the Polars `when` condition null, so the
`otherwise` branch keeps the raw value. -/
def nullifyPreTrackingStats (r : FactRow) : FactRow :=
  { r with
    trackedVal := fun s =>
      match r.seasonStartYear with
      | some y => if y < statStartSeason s then none else r.trackedVal s
      | none => r.trackedVal s }

/-- Polars `(col >= 10).cast(Int64)`: null propagates, otherwise a 0/1 indicator. -/
def indGE10 (v : Option Int) : Option Int :=
  v.map fun x => if 10 ≤ x then 1 else 0

/-- Null-propagating addition, the semantics of `+` between Polars expressions. -/
def optAdd (a b : Option Int) : Option Int :=
  match a, b with
  | some x, some y => some (x + y)
  | _, _ => none

/-- data_loader.py:289-299: the `_doubles_count` column, the null-propagating sum of
the five 0/1 indicators (points, assists, rebounds, steals, blocks each at least
10). -/
def doublesCount (r : FactRow) : Option Int :=
  optAdd (indGE10 r.PTS)
    (optAdd (indGE10 r.AST)
      (optAdd (indGE10 (r.trackedVal .TRB))
        (optAdd (indGE10 (r.trackedVal .STL)) (indGE10 (r.trackedVal .BLK)))))

/-- data_loader.py:303: `DD` is 1 exactly when `_doubles_count == 2`; a null count
takes the `otherwise 0` branch. -/
def ddFlag (r : FactRow) : Int :=
  if doublesCount r = some 2 then 1 else 0

/-- data_loader.py:304: `TD` is 1 exactly when `_doubles_count == 3`. -/
def tdFlag (r : FactRow) : Int :=
  if doublesCount r = some 3 then 1 else 0

/-- data_loader.py:305: `QD` is 1 exactly when `_doubles_count == 4`. -/
def qdFlag (r : FactRow) : Int :=
  if doublesCount r = some 4 then 1 else 0

/-- analysis_sql.py:283-287: one `CASE WHEN COALESCE(stat, 0) >= 10 THEN 1 ELSE 0`
summand of the SQL double-double expression. -/
def coalesceInd10 (v : Option Int) : Int :=
  if 10 ≤ v.getD 0 then 1 else 0

/-- analysis_sql.py:281-299: the five-indicator count used by the SQL `DD`/`TD`
expressions; `COALESCE` treats null as 0. -/
def sqlDoublesCount (r : FactRow) : Int :=
  coalesceInd10 r.PTS + coalesceInd10 r.AST + coalesceInd10 (r.trackedVal .TRB) +
    coalesceInd10 (r.trackedVal .STL) + coalesceInd10 (r.trackedVal .BLK)

/-- analysis_sql.py:280-288: the SQL `DD` expression is 1 when the count is at
least 2. -/
def sqlDDValue (r : FactRow) : Int :=
  if 2 ≤ sqlDoublesCount r then 1 else 0

/-- analysis_sql.py:290-299: the SQL `TD` expression is 1 when the count is at
least 3. -/
def sqlTDValue (r : FactRow) : Int :=
  if 3 ≤ sqlDoublesCount r then 1 else 0

/-- The flag-carrying output row of the fact-table build. -/
structure AnalysisRow where
  row : FactRow
  dd : Int
  td : Int
  qd : Int

/-- data_loader.py:201-238, `create_analysis_df`: the pre-tracking nullification
(line 216) runs first, and the derived double flags (line 219 via
`_add_derived_columns` / `_add_double_flags`) are computed from the already
nullified values. -/
def createAnalysisRow (r : FactRow) : AnalysisRow :=
  let n := nullifyPreTrackingStats r
  { row := n, dd := ddFlag n, td := tdFlag n, qd := qdFlag n }

/-- A concrete fact row holding a triple-double: 10 points, 10 assists,
10 rebounds, 0 steals, 0 blocks, in a modern season. -/
def tripleDoubleRow : FactRow :=
  { seasonStartYear := some 2020
    PTS := some 10
    AST := some 10
    trackedVal := fun s =>
      match s with
      | .TRB => some 10
      | _ => some 0 }

/-- A fact row from the 1950-51 season with a recorded raw steal value; steals were
not tracked until 1973. -/
def earlyRow : FactRow :=
  { seasonStartYear := some 1950
    PTS := some 12
    AST := some 3
    trackedVal := fun s =>
      match s with
      | .STL => some 7
      | _ => some 0 }

/-- A fact row from the 1990-91 season, after every tracking-start season except
plus/minus. -/
def modernRow : FactRow :=
  { seasonStartYear := some 1990
    PTS := some 25
    AST := some 4
    trackedVal := fun s =>
      match s with
      | .STL => some 2
      | _ => some 1 }

/-- C5: the derived `age_at_game` is the exact floor age in whole years: `n`-th
birthday reached is equivalent to age at least `n` (first conjunct), and a player
born 2000-06-15 has age 24 on 2025-06-14 and age 25 on 2025-06-15; on any 2025
game date the age is 24 exactly when the (month, day) precedes (6, 15), hence 25 on
2025-06-15 or later. -/
theorem ageAtGame_floor_spec :
    (∀ birth game : SimpleDate, ∀ n : Int,
      (dateLE (addYears birth n) game ↔ n ≤ ageAtGame birth game)) ∧
    ageAtGame ⟨2000, 6, 15⟩ ⟨2025, 6, 14⟩ = 24 ∧
    ageAtGame ⟨2000, 6, 15⟩ ⟨2025, 6, 15⟩ = 25 ∧
    (∀ m d : Int, ageAtGame ⟨2000, 6, 15⟩ ⟨2025, m, d⟩ =
      if m < 6 ∨ (m = 6 ∧ d < 15) then 24 else 25) := by
  refine ⟨?_, by decide, by decide, ?_⟩
  · intro birth game n
    simp only [dateLE, addYears, ageAtGame]
    split_ifs <;> omega
  · intro m d
    simp only [ageAtGame]
    split_ifs <;> omega

/-- C3 counterexample: the triple-double row has an indicator count of 3 (which is
at least 2), but its fact-table `DD` flag is 0, not 1 - `_add_double_flags` tests
`_doubles_count == 2`, not `>= 2`. -/
theorem doubleFlags_ge_claim_counterexample :
    doublesCount tripleDoubleRow = some 3 ∧
    (2 : Int) ≤ 3 ∧
    ddFlag tripleDoubleRow = 0 ∧
    tdFlag tripleDoubleRow = 1 := by
  refine ⟨by decide, by decide, by decide, by decide⟩

/-- C3 amended: on a fact row whose five indicator inputs are all non-null with
count `c`, the builder's `DD`/`TD`/`QD` flags are 1 exactly when `c` equals (not
merely reaches) 2/3/4; the SQL analyzer's on-the-fly `DD`/`TD` expressions instead
use at-least-2 and at-least-3 over null-coalesced inputs. -/
theorem doubleFlags_exact_count_spec :
    (∀ (r : FactRow) (c : Int), doublesCount r = some c →
      ((ddFlag r = 1 ↔ c = 2) ∧ (tdFlag r = 1 ↔ c = 3) ∧ (qdFlag r = 1 ↔ c = 4))) ∧
    (∀ r : FactRow,
      (sqlDDValue r = 1 ↔ 2 ≤ sqlDoublesCount r) ∧
      (sqlTDValue r = 1 ↔ 3 ≤ sqlDoublesCount r)) := by
  constructor
  · intro r c h
    refine ⟨?_, ?_, ?_⟩ <;>
      simp only [ddFlag, tdFlag, qdFlag, h] <;> split <;> simp_all
  · intro r
    constructor <;> [skip; skip] <;>
      simp only [sqlDDValue, sqlTDValue] <;> split <;> simp_all

/-- C3 witness: the amended flag characterization evaluated on the triple-double
row (count 3: `TD` is 1, `DD` and `QD` are 0; both SQL expressions are 1). -/
theorem doubleFlags_exact_count_spec_witness :
    (ddFlag tripleDoubleRow = 1 ↔ (3 : Int) = 2) ∧
    (tdFlag tripleDoubleRow = 1 ↔ (3 : Int) = 3) ∧
    (qdFlag tripleDoubleRow = 1 ↔ (3 : Int) = 4) :=
  doubleFlags_exact_count_spec.1 tripleDoubleRow 3 (by decide)

/-- C4: in the fact-table build, every tracked statistic `s` with tracking-start
season `Y` is null on rows with season-start-year strictly below `Y` and keeps its
raw input value on rows with season-start-year at least `Y`; the derived double
flags of the build are computed from the already-nullified values (nullification
precedes flag derivation in `create_analysis_df`). -/
theorem nullify_pre_tracking_spec :
    ∀ (r : FactRow) (s : TrackedStat) (y : Int),
      (r.seasonStartYear = some y → y < statStartSeason s →
        (createAnalysisRow r).row.trackedVal s = none) ∧
      (r.seasonStartYear = some y → statStartSeason s ≤ y →
        (createAnalysisRow r).row.trackedVal s = r.trackedVal s) ∧
      (createAnalysisRow r).dd = ddFlag (nullifyPreTrackingStats r) ∧
      (createAnalysisRow r).td = tdFlag (nullifyPreTrackingStats r) ∧
      (createAnalysisRow r).qd = qdFlag (nullifyPreTrackingStats r) := by
  intro r s y
  refine ⟨?_, ?_, rfl, rfl, rfl⟩
  · intro hy hlt
    simp [createAnalysisRow, nullifyPreTrackingStats, hy, hlt]
  · intro hy hge
    simp [createAnalysisRow, nullifyPreTrackingStats, hy, not_lt.mpr hge]

/-- C4 witness: the 1950-51 row's raw steal value 7 is nullified (steals start in
1973), while the 1990-91 row keeps its raw steal value. -/
theorem nullify_pre_tracking_spec_witness :
    (createAnalysisRow earlyRow).row.trackedVal TrackedStat.STL = none ∧
    (createAnalysisRow modernRow).row.trackedVal TrackedStat.STL =
      modernRow.trackedVal TrackedStat.STL :=
  ⟨(nullify_pre_tracking_spec earlyRow TrackedStat.STL 1950).1 rfl (by decide),
   (nullify_pre_tracking_spec modernRow TrackedStat.STL 1990).2.1 rfl (by decide)⟩

/-! ### Dispatch layer: parameter sanitization (`_clean_params`, app/executor.py:145-209)
and outcome signalling (`execute_analysis`, app/executor.py:83-142). -/

/-- A Python value as it can appear in the interpreter-produced parameter map. -/
inductive PyVal where
  | pint (n : Int)
  | pstr (s : String)
  | pbool (b : Bool)
  | pnone
deriving DecidableEq, Repr

/-- Decimal digit value of a character, by its code point. -/
def charDigit (c : Char) : Option Nat :=
  if 48 ≤ c.toNat ∧ c.toNat ≤ 57 then some (c.toNat - 48) else none

/-- Value of a non-empty all-digit character list. -/
def digitsToNat : List Char → Option Nat
  | [] => none
  | [c] => charDigit c
  | c :: rest =>
    match charDigit c, digitsToNat rest with
    | some d, some v => some (d * 10 ^ rest.length + v)
    | _, _ => none

/-- Python `int(...)` on a string: an optional minus sign followed by digits,
`None` when the string is not an integer literal. -/
def strToInt (s : String) : Option Int :=
  match s.data with
  | '-' :: rest => (digitsToNat rest).map fun n => -(n : Int)
  | l => (digitsToNat l).map fun n => (n : Int)

/-- Python `int(value)`: identity on ints, 0/1 on bools, string parsing, and a
`TypeError` (`none`) on `None`. -/
def pyToInt : PyVal → Option Int
  | .pint n => some n
  | .pbool b => some (if b then 1 else 0)
  | .pstr s => strToInt s
  | .pnone => none

/-- executor.py:152-176: the per-operation allow-list of recognized parameter
names. -/
def allowedParams : String → List String
  | "get_ranking_by_age" =>
    ["label", "max_age", "min_age", "min_games", "aggfunc", "league", "game_type", "top_n"]
  | "get_consecutive_games" => ["label", "game_type", "league", "top_n"]
  | "get_games_to_reach" => ["label", "threshold", "game_type", "league", "top_n"]
  | "get_n_game_span_ranking" => ["label", "n_games", "game_type", "league", "top_n"]
  | "get_season_achievement_count" => ["label", "threshold", "league", "top_n"]
  | "get_duel_ranking" => ["label", "game_type", "min_total", "player1", "player2", "top_n"]
  | "get_filtered_achievement_count" =>
    ["count_column", "count_threshold", "filter_column", "filter_op", "filter_value",
     "game_type", "league", "top_n"]
  | _ => []

/-- executor.py:190: the parameter names coerced with `int(value)`. -/
def intParamKeys : List String :=
  ["max_age", "min_age", "min_games", "threshold", "n_games", "top_n", "min_total",
   "count_threshold", "filter_value"]

/-- executor.py:180-196: processing of one `(key, value)` entry of the parameter
dict - keys outside the allow-list and `None` values are skipped, integer-typed
keys are coerced with `int(...)` and dropped when the coercion raises. -/
def cleanStep (allowed : List String) (acc : List (String × PyVal)) (kv : String × PyVal) :
    List (String × PyVal) :=
  if kv.1 ∈ allowed then
    if kv.2 = PyVal.pnone then acc
    else if kv.1 ∈ intParamKeys then
      match pyToInt kv.2 with
      | some n => (kv.1, PyVal.pint n) :: acc
      | none => acc
    else kv :: acc
  else acc

/-- Key lookup in the assoc-list embedding of a Python dict (first match; the
fold conses the newest entry in front, matching dict overwrite semantics). -/
def plookup (k : String) : List (String × PyVal) → Option PyVal
  | [] => none
  | (k2, v) :: rest => if k = k2 then some v else plookup k rest

/-- The sanitized map before defaults are injected. -/
def cleanParamsCore (funcName : String) (params : List (String × PyVal)) :
    List (String × PyVal) :=
  params.foldl (cleanStep (allowedParams funcName)) []

/-- Injection of a default value when the key is absent (executor.py:199-207). -/
def withDefault (c : List (String × PyVal)) (k : String) (v : PyVal) :
    List (String × PyVal) :=
  if (plookup k c).isNone then (k, v) :: c else c

/-- executor.py:145-209, `_clean_params`: sanitize, then default `top_n` to 10,
`game_type` to `regular`, and (for `get_ranking_by_age`) `aggfunc` to `sum`. -/
def cleanParams (funcName : String) (params : List (String × PyVal)) :
    List (String × PyVal) :=
  let c := cleanParamsCore funcName params
  let c := withDefault c "top_n" (PyVal.pint 10)
  let c := withDefault c "game_type" (PyVal.pstr "regular")
  if funcName = "get_ranking_by_age" then withDefault c "aggfunc" (PyVal.pstr "sum") else c

theorem lookup_cleanStep_ne (allowed : List String) (acc : List (String × PyVal))
    (kv : String × PyVal) (k : String) (hne : k ≠ kv.1) :
    plookup k (cleanStep allowed acc kv) = plookup k acc := by
  unfold cleanStep
  split_ifs with h1 h2 h3
  · rfl
  · cases hp : pyToInt kv.2 <;> simp [hp, plookup, hne]
  · simp [plookup, hne]
  · rfl

theorem lookup_foldl_not_allowed (allowed : List String) (k : String)
    (hk : k ∉ allowed) :
    ∀ (params : List (String × PyVal)) (acc : List (String × PyVal)),
      plookup k (params.foldl (cleanStep allowed) acc) = plookup k acc := by
  intro params
  induction params with
  | nil => intro acc; rfl
  | cons kv rest ih =>
    intro acc
    rw [List.foldl_cons, ih]
    by_cases he : k = kv.1
    · subst he
      unfold cleanStep
      rw [if_neg hk]
    · exact lookup_cleanStep_ne allowed acc kv k he

theorem lookup_foldl_int_uncoercible (allowed : List String) (k : String)
    (hk : k ∈ intParamKeys) :
    ∀ (params : List (String × PyVal)) (acc : List (String × PyVal)),
      (∀ v, (k, v) ∈ params → pyToInt v = none) →
      plookup k (params.foldl (cleanStep allowed) acc) = plookup k acc := by
  intro params
  induction params with
  | nil => intro acc _; rfl
  | cons kv rest ih =>
    intro acc hbad
    rw [List.foldl_cons, ih _ (fun v hv => hbad v (List.mem_cons_of_mem kv hv))]
    by_cases he : k = kv.1
    · subst he
      unfold cleanStep
      split_ifs with h1 h2
      · rfl
      · have hb : pyToInt kv.2 = none := hbad kv.2 (List.mem_cons_self kv rest)
        simp [hb]
      · rfl
    · exact lookup_cleanStep_ne allowed acc kv k he

theorem lookup_withDefault_ne (c : List (String × PyVal)) (k k2 : String) (v : PyVal)
    (hne : k ≠ k2) : plookup k (withDefault c k2 v) = plookup k c := by
  unfold withDefault
  split_ifs with h
  · simp [plookup, hne]
  · rfl

theorem lookup_withDefault_self (c : List (String × PyVal)) (k : String) (v : PyVal)
    (h : plookup k c = none) : plookup k (withDefault c k v) = some v := by
  unfold withDefault
  rw [h]
  simp [plookup]

/-- C8: `_clean_params` drops any key outside the operation's allow-list (first
conjunct: such a key, unless it is one of the three default-injected names, is
absent from the sanitized map), omits - without raising - any integer-typed key
all of whose supplied values fail `int(...)` coercion (second conjunct: such a key
is absent, except `top_n` which then carries its default 10), and injects
`top_n = 10` whenever the sanitized map has no `top_n` entry (third conjunct). -/
theorem cleanParams_sanitization_spec :
    ∀ (funcName : String) (params : List (String × PyVal)) (k : String),
      (k ∉ allowedParams funcName → k ≠ "top_n" → k ≠ "game_type" → k ≠ "aggfunc" →
        plookup k (cleanParams funcName params) = none) ∧
      (k ∈ intParamKeys → (∀ v, (k, v) ∈ params → pyToInt v = none) →
        plookup k (cleanParams funcName params) =
          if k = "top_n" then some (PyVal.pint 10) else none) ∧
      (plookup "top_n" (cleanParamsCore funcName params) = none →
        plookup "top_n" (cleanParams funcName params) = some (PyVal.pint 10)) := by
  intro funcName params k
  refine ⟨?_, ?_, ?_⟩
  · intro hk h1 h2 h3
    unfold cleanParams
    have hcore : plookup k (cleanParamsCore funcName params) = none :=
      lookup_foldl_not_allowed _ k hk params []
    split_ifs with hf
    · rw [lookup_withDefault_ne _ _ _ _ h3, lookup_withDefault_ne _ _ _ _ h2,
        lookup_withDefault_ne _ _ _ _ h1, hcore]
    · rw [lookup_withDefault_ne _ _ _ _ h2, lookup_withDefault_ne _ _ _ _ h1, hcore]
  · intro hk hbad
    have hcore : plookup k (cleanParamsCore funcName params) = none :=
      lookup_foldl_int_uncoercible _ k hk params [] hbad
    have hng : k ≠ "game_type" := by
      intro he; subst he; exact absurd hk (by decide)
    have hna : k ≠ "aggfunc" := by
      intro he; subst he; exact absurd hk (by decide)
    unfold cleanParams
    by_cases ht : k = "top_n"
    · subst ht
      rw [if_pos rfl]
      split_ifs with hf
      · rw [lookup_withDefault_ne _ _ _ _ hna, lookup_withDefault_ne _ _ _ _ hng,
          lookup_withDefault_self _ _ _ hcore]
      · rw [lookup_withDefault_ne _ _ _ _ hng, lookup_withDefault_self _ _ _ hcore]
    · rw [if_neg ht]
      split_ifs with hf
      · rw [lookup_withDefault_ne _ _ _ _ hna, lookup_withDefault_ne _ _ _ _ hng,
          lookup_withDefault_ne _ _ _ _ ht, hcore]
      · rw [lookup_withDefault_ne _ _ _ _ hng, lookup_withDefault_ne _ _ _ _ ht, hcore]
  · intro hcore
    unfold cleanParams
    split_ifs with hf
    · rw [lookup_withDefault_ne _ _ _ _ (by decide), lookup_withDefault_ne _ _ _ _ (by decide),
        lookup_withDefault_self _ _ _ hcore]
    · rw [lookup_withDefault_ne _ _ _ _ (by decide), lookup_withDefault_self _ _ _ hcore]

/-- C8 witness: for `get_games_to_reach` with parameters
`{bogus: "x", threshold: "abc"}`, the unrecognized key `bogus` is dropped, the
uncoercible integer key `threshold` is omitted, and `top_n` carries the injected
default 10. -/
theorem cleanParams_sanitization_spec_witness :
    plookup "bogus" (cleanParams "get_games_to_reach"
      [("bogus", PyVal.pstr "x"), ("threshold", PyVal.pstr "abc")]) = none ∧
    plookup "threshold" (cleanParams "get_games_to_reach"
      [("bogus", PyVal.pstr "x"), ("threshold", PyVal.pstr "abc")]) = none ∧
    plookup "top_n" (cleanParams "get_games_to_reach"
      [("bogus", PyVal.pstr "x"), ("threshold", PyVal.pstr "abc")]) =
      some (PyVal.pint 10) := by
  have h := cleanParams_sanitization_spec "get_games_to_reach"
    [("bogus", PyVal.pstr "x"), ("threshold", PyVal.pstr "abc")]
  refine ⟨(h "bogus").1 (by decide) (by decide) (by decide) (by decide), ?_, ?_⟩
  · have h2 := (h "threshold").2.1 (by decide) ?_
    · rw [h2]; rfl
    · intro v hv
      simp only [List.mem_cons, List.not_mem_nil, or_false, Prod.mk.injEq] at hv
      rcases hv with ⟨h1, _⟩ | ⟨_, h2⟩
      · exact absurd h1 (by decide)
      · subst h2; decide
  · exact (h "top_n").2.2 (by decide)

/-- executor.py:37-45: the fixed operation catalogue of the dispatch layer. -/
def availableFunctions : List String :=
  ["get_ranking_by_age", "get_consecutive_games", "get_games_to_reach",
   "get_n_game_span_ranking", "get_season_achievement_count", "get_duel_ranking",
   "get_filtered_achievement_count"]

/-- What the invoked catalogue operation does: either returns a result table or
raises an exception carrying a message. -/
inductive CatalogOutcome where
  | success (rows : List (String × Int))
  | raised (msg : String)

/-- executor.py:128: the fixed message for an empty result. -/
def noDataMessage : String := "条件に一致するデータが見つかりませんでした"

/-- executor.py:109: the message for an operation outside the catalogue. -/
def unsupportedMessage (f : String) : String :=
  "「" ++ f ++ "」は対応していない分析タイプです"

/-- executor.py:142: the message wrapping a caught exception. -/
def errorMessage (e : String) : String :=
  "分析中にエラーが発生しました: " ++ e

/-- executor.py:83-142, `execute_analysis`: control flow of the dispatch layer.
The catalogue invocation is abstracted as `run`; image enrichment of a
non-empty result is out of the embedded scope. -/
def executeAnalysis (funcName : Option String) (description : String)
    (run : String → CatalogOutcome) : Option (List (String × Int)) × String :=
  match funcName with
  | none => (none, description)
  | some f =>
    if f ∈ availableFunctions then
      match run f with
      | .raised e => (none, errorMessage e)
      | .success rows => if rows = [] then (none, noDataMessage) else (some rows, description)
    else (none, unsupportedMessage f)

/-- A catalogue stub returning an empty table. -/
def runEmpty : String → CatalogOutcome := fun _ => .success []

/-- A catalogue stub raising an exception. -/
def runBoom : String → CatalogOutcome := fun _ => .raised "boom"

/-- C9 counterexample: the non-success outcomes of `execute_analysis` all return
`None` as the result component, so outside the message text they carry no
distinguishing discriminant; moreover the no-operation outcome returns the
interpreter's description verbatim, which can equal the empty-result message
exactly, so even the message does not always discriminate. -/
theorem executeAnalysis_discriminant_counterexample :
    (executeAnalysis (some "bogus_function") "d" runEmpty).1 = none ∧
    (executeAnalysis (some "get_games_to_reach") "d" runEmpty).1 = none ∧
    (executeAnalysis (some "get_games_to_reach") "d" runBoom).1 = none ∧
    (executeAnalysis none "d" runEmpty).1 = none ∧
    (executeAnalysis none noDataMessage runEmpty).2 =
      (executeAnalysis (some "get_games_to_reach") noDataMessage runEmpty).2 :=
  ⟨rfl, rfl, rfl, rfl, rfl⟩

/-- C9 amended: the dispatch layer returns `(None, message)` for all four
non-success outcomes - missing operation (the description verbatim), unknown
operation, empty result, and raised exception - distinguishable only through the
message strings, not through a structured discriminant; a non-empty successful
result returns the table with the description. -/
theorem executeAnalysis_outcome_spec :
    ∀ (d : String) (run : String → CatalogOutcome) (f : String) (rows : List (String × Int))
      (e : String),
      executeAnalysis none d run = (none, d) ∧
      (f ∉ availableFunctions → executeAnalysis (some f) d run = (none, unsupportedMessage f)) ∧
      (f ∈ availableFunctions → run f = .success [] →
        executeAnalysis (some f) d run = (none, noDataMessage)) ∧
      (f ∈ availableFunctions → run f = .raised e →
        executeAnalysis (some f) d run = (none, errorMessage e)) ∧
      (f ∈ availableFunctions → run f = .success rows → rows ≠ [] →
        executeAnalysis (some f) d run = (some rows, d)) := by
  intro d run f rows e
  refine ⟨rfl, ?_, ?_, ?_, ?_⟩
  · intro hf
    simp [executeAnalysis, hf]
  · intro hf hr
    simp [executeAnalysis, hf, hr]
  · intro hf hr
    simp [executeAnalysis, hf, hr]
  · intro hf hr hne
    simp [executeAnalysis, hf, hr, hne]

/-- C9 witness: the amended outcome characterization evaluated at concrete
inputs covering all five cases. -/
theorem executeAnalysis_outcome_spec_witness :
    executeAnalysis none "desc" runEmpty = (none, "desc") ∧
    executeAnalysis (some "bogus_function") "desc" runEmpty =
      (none, unsupportedMessage "bogus_function") ∧
    executeAnalysis (some "get_games_to_reach") "desc" runEmpty = (none, noDataMessage) ∧
    executeAnalysis (some "get_games_to_reach") "desc" runBoom =
      (none, errorMessage "boom") ∧
    executeAnalysis (some "get_games_to_reach") "desc" (fun _ => .success [("A", 3)]) =
      (some [("A", 3)], "desc") := by
  refine ⟨(executeAnalysis_outcome_spec "desc" runEmpty "x" [] "e").1,
    (executeAnalysis_outcome_spec "desc" runEmpty "bogus_function" [] "e").2.1 (by decide),
    (executeAnalysis_outcome_spec "desc" runEmpty "get_games_to_reach" [] "e").2.2.1
      (by decide) rfl,
    (executeAnalysis_outcome_spec "desc" runBoom "get_games_to_reach" [] "boom").2.2.2.1
      (by decide) rfl,
    (executeAnalysis_outcome_spec "desc" (fun _ => .success [("A", 3)])
      "get_games_to_reach" [("A", 3)] "e").2.2.2.2 (by decide) rfl (by decide)⟩

/-! ### The analysis dataframe and the shared game-type filter
(`NBAAnalyzer._filter_by_game_type`, analysis.py:631-652;
`NBAAnalyzerSQL._get_game_type_clause`, analysis_sql.py:59-72). -/

/-- A row of the analysis dataframe as consumed by the catalogue operations.
`labelVal` is the column selected by the operation's `label` parameter. -/
structure BoxRow where
  playerName : String
  datetime : Int
  League : String
  isRegular : Option Int
  isPlayin : Option Int
  isFinal : Option Int
  seasonStartYear : Option Int
  Played : Int
  PTS : Option Int
  labelVal : Option Int
deriving DecidableEq, Repr

/-- analysis.py:631-652, `_filter_by_game_type`: league filter, then the game-type
filter.  Polars keeps a row only when the filter expression is `true`, so a null
comparison result drops the row; the `playoff` branch tests whether the `isPlayin`
column exists at all (`hasPlayinCol`). -/
def filterByGameType (df : List BoxRow) (gameType league : String) (hasPlayinCol : Bool) :
    List BoxRow :=
  let d := df.filter fun r => r.League == league
  if gameType = "regular" then d.filter fun r => r.isRegular == some 1
  else if gameType = "playoff" then
    if hasPlayinCol then d.filter fun r => r.isRegular == some 0 && r.isPlayin == some 0
    else d.filter fun r => r.isRegular == some 0
  else if gameType = "final" then d.filter fun r => r.isFinal == some 1
  else d

/-- analysis_sql.py:59-72, `_get_game_type_clause`: the SQL backend's row
predicate; `COALESCE(isPlayin, 0)` treats a null `isPlayin` as 0. -/
def sqlGameTypeKeep (gameType league : String) (r : BoxRow) : Bool :=
  r.League == league &&
    (if gameType = "regular" then r.isRegular == some 1
     else if gameType = "playoff" then r.isRegular == some 0 && r.isPlayin.getD 0 == 0
     else if gameType = "final" then r.isFinal == some 1
     else true)

/-- A playoff game row whose `isPlayin` value is null (as for seasons recorded
before the play-in era). -/
def playinNullRow : BoxRow :=
  { playerName := "A", datetime := 1, League := "NBA", isRegular := some 0,
    isPlayin := none, isFinal := some 0, seasonStartYear := some 2020, Played := 1,
    PTS := some 10, labelVal := some 1 }

/-- C6 counterexample: a row with `isRegular = 0` and a *null* `isPlayin` satisfies
the claim's keep-condition (missing `isPlayin` treated as 0), and the SQL backend
does keep it, but the in-memory `playoff` filter drops it - a null comparison is
not treated as 0 there. -/
theorem gameTypeFilter_null_playin_counterexample :
    playinNullRow.League = "NBA" ∧
    playinNullRow.isRegular = some 0 ∧
    playinNullRow.isPlayin.getD 0 = 0 ∧
    sqlGameTypeKeep "playoff" "NBA" playinNullRow = true ∧
    filterByGameType [playinNullRow] "playoff" "NBA" true = [] :=
  ⟨rfl, rfl, rfl, rfl, rfl⟩

/-- C6 amended: both backends share the game-type filter applied before
operation-specific logic; `regular` keeps exactly `isRegular = 1` rows, `final`
exactly `isFinal = 1` rows and `all` every league row, in both backends.  For
`playoff`, the SQL backend keeps exactly the `isRegular = 0` rows whose
`isPlayin` - with null coalesced to 0 - is 0, while the in-memory backend keeps
exactly the rows with `isRegular = 0` and non-null `isPlayin = 0` when the
`isPlayin` column exists (a null `isPlayin` drops the row) and exactly the
`isRegular = 0` rows when the column is absent. -/
theorem gameTypeFilter_spec :
    ∀ (df : List BoxRow) (league : String) (hasPlayinCol : Bool) (r : BoxRow),
      (r ∈ filterByGameType df "regular" league hasPlayinCol ↔
        r ∈ df ∧ r.League = league ∧ r.isRegular = some 1) ∧
      (r ∈ filterByGameType df "playoff" league true ↔
        r ∈ df ∧ r.League = league ∧ r.isRegular = some 0 ∧ r.isPlayin = some 0) ∧
      (r ∈ filterByGameType df "playoff" league false ↔
        r ∈ df ∧ r.League = league ∧ r.isRegular = some 0) ∧
      (r ∈ filterByGameType df "final" league hasPlayinCol ↔
        r ∈ df ∧ r.League = league ∧ r.isFinal = some 1) ∧
      (r ∈ filterByGameType df "all" league hasPlayinCol ↔
        r ∈ df ∧ r.League = league) ∧
      (sqlGameTypeKeep "regular" league r = true ↔
        r.League = league ∧ r.isRegular = some 1) ∧
      (sqlGameTypeKeep "playoff" league r = true ↔
        r.League = league ∧ r.isRegular = some 0 ∧ r.isPlayin.getD 0 = 0) ∧
      (sqlGameTypeKeep "final" league r = true ↔
        r.League = league ∧ r.isFinal = some 1) ∧
      (sqlGameTypeKeep "all" league r = true ↔ r.League = league) := by
  intro df league hasPlayinCol r
  refine ⟨?_, ?_, ?_, ?_, ?_, ?_, ?_, ?_, ?_⟩ <;>
    simp [filterByGameType, sqlGameTypeKeep, List.mem_filter, and_assoc] <;> tauto

/-! ### Chronological ordering machinery shared by the streak, games-to-reach and
season computations. -/

/-- The (playerName, datetime) lexicographic order used by
`data.sort(["playerName", "datetime"])`; player names are compared by their
character lists (lexicographic code-point order). -/
def rowLe (a b : BoxRow) : Prop :=
  a.playerName.data < b.playerName.data ∨
    (a.playerName = b.playerName ∧ a.datetime ≤ b.datetime)

instance : DecidableRel rowLe := fun a b => by
  unfold rowLe
  infer_instance

instance : IsTotal BoxRow rowLe where
  total a b := by
    unfold rowLe
    rcases lt_trichotomy a.playerName.data b.playerName.data with h | h | h
    · exact Or.inl (Or.inl h)
    · have he : a.playerName = b.playerName := String.ext h
      rcases le_total a.datetime b.datetime with hd | hd
      · exact Or.inl (Or.inr ⟨he, hd⟩)
      · exact Or.inr (Or.inr ⟨he.symm, hd⟩)
    · exact Or.inr (Or.inl h)

instance : IsTrans BoxRow rowLe where
  trans a b c hab hbc := by
    unfold rowLe at hab hbc ⊢
    rcases hab with h1 | ⟨h1, d1⟩ <;> rcases hbc with h2 | ⟨h2, d2⟩
    · exact Or.inl (h1.trans h2)
    · exact Or.inl (by rw [← h2]; exact h1)
    · exact Or.inl (by rw [h1]; exact h2)
    · exact Or.inr ⟨h1.trans h2, d1.trans d2⟩

/-- Chronological (datetime) order on rows. -/
def dtLe (a b : BoxRow) : Prop := a.datetime ≤ b.datetime

/-- `data.sort(["playerName", "datetime"])`. -/
def sortRows (d : List BoxRow) : List BoxRow := List.insertionSort rowLe d

/-- The game-type filter followed by the `Played == 1` filter, the common prefix of
the catalogue operations (for example analysis.py:116-117). -/
def playedFilter (df : List BoxRow) (gameType league : String) (hasPlayinCol : Bool) :
    List BoxRow :=
  (filterByGameType df gameType league hasPlayinCol).filter fun r => r.Played == 1

/-- The distinct player names of a frame, in first-occurrence order: the group keys
of `group_by("playerName")`. -/
def playerNamesOf (l : List BoxRow) : List String :=
  (l.map fun r => r.playerName).dedup

theorem sortRows_perm (d : List BoxRow) : List.Perm (sortRows d) d :=
  List.perm_insertionSort rowLe d

theorem sortRows_filter_perm (d : List BoxRow) (p : BoxRow → Bool) :
    List.Perm ((sortRows d).filter p) (d.filter p) :=
  (sortRows_perm d).filter p

theorem sortRows_filter_player_sorted (d : List BoxRow) (pn : String) :
    List.Sorted dtLe ((sortRows d).filter fun r => r.playerName == pn) := by
  have hs : List.Sorted rowLe (sortRows d) := List.sorted_insertionSort rowLe d
  have h2 : List.Sorted rowLe ((sortRows d).filter fun r => r.playerName == pn) :=
    List.Pairwise.sublist (List.filter_sublist (sortRows d)) hs
  refine List.Pairwise.imp_of_mem ?_ h2
  intro a b ha hb hr
  have hpa : a.playerName = pn := by simpa using (List.mem_filter.mp ha).2
  have hpb : b.playerName = pn := by simpa using (List.mem_filter.mp hb).2
  rcases hr with h | ⟨_, hd⟩
  · rw [hpa, hpb] at h
    exact absurd h (lt_irrefl _)
  · exact hd

theorem mem_playerNamesOf {l : List BoxRow} {p : String} :
    p ∈ playerNamesOf l ↔ ∃ r ∈ l, r.playerName = p := by
  simp [playerNamesOf, List.mem_dedup, List.mem_map]

/-- Ascending order on the value component of a ranking entry with `Nat` values. -/
def ascNat (a b : String × Nat) : Prop := a.2 ≤ b.2

instance : DecidableRel ascNat := fun a b => by
  unfold ascNat
  infer_instance

instance : IsTotal (String × Nat) ascNat := ⟨fun a b => Nat.le_total a.2 b.2⟩

instance : IsTrans (String × Nat) ascNat := ⟨fun _ _ _ h h2 => le_trans h h2⟩

/-- Descending order on the value component of a ranking entry with `Nat` values. -/
def descNat (a b : String × Nat) : Prop := b.2 ≤ a.2

instance : DecidableRel descNat := fun a b => by
  unfold descNat
  infer_instance

instance : IsTotal (String × Nat) descNat := ⟨fun a b => Nat.le_total b.2 a.2⟩

instance : IsTrans (String × Nat) descNat := ⟨fun _ _ _ h h2 => le_trans h2 h⟩

/-- Descending order on the value component of a ranking entry with `Int` values. -/
def descInt (a b : String × Int) : Prop := b.2 ≤ a.2

instance : DecidableRel descInt := fun a b => by
  unfold descInt
  infer_instance

instance : IsTotal (String × Int) descInt := ⟨fun a b => Int.le_total b.2 a.2⟩

instance : IsTrans (String × Int) descInt := ⟨fun _ _ _ h h2 => le_trans h2 h⟩

/-! ### ConsecutiveGames (`NBAAnalyzer.get_consecutive_games`, analysis.py:87-146). -/

/-- analysis.py:135-146, `_count_max_consecutive_list`: the running/maximum counter
loop over the achievement values; only a value equal to 1 extends a run. -/
def countMaxConsecutiveAux : List (Option Int) → Nat → Nat → Nat
  | [], _, maxCount => maxCount
  | v :: rest, count, maxCount =>
    if v = some 1 then countMaxConsecutiveAux rest (count + 1) (max maxCount (count + 1))
    else countMaxConsecutiveAux rest 0 maxCount

/-- analysis.py:135-146: the maximum number of consecutive 1s in the value list. -/
def countMaxConsecutiveList (values : List (Option Int)) : Nat :=
  countMaxConsecutiveAux values 0 0

/-- Length of the leading run of 1s. -/
def leadOnes : List (Option Int) → Nat
  | [] => 0
  | v :: rest => if v = some 1 then leadOnes rest + 1 else 0

/-- Specification-side value: the maximum over all suffixes of the leading-ones
length, i.e. the maximum run length of consecutive 1s. -/
def maxRunLen : List (Option Int) → Nat
  | [] => 0
  | v :: rest => max (leadOnes (v :: rest)) (maxRunLen rest)

/-- Specification predicate: `m` is a contiguous segment of `l`. -/
def SegOf (m l : List (Option Int)) : Prop := ∃ u w, l = u ++ m ++ w

/-- Specification predicate: every value of the segment is the achievement
indicator 1. -/
def AllOnes (m : List (Option Int)) : Prop := ∀ v ∈ m, v = some 1

instance (m : List (Option Int)) : Decidable (AllOnes m) :=
  List.decidableBAll (fun v => v = some 1) m

theorem leadOnes_le_maxRunLen : ∀ l : List (Option Int), leadOnes l ≤ maxRunLen l
  | [] => le_refl 0
  | _ :: _ => le_max_left _ _

theorem countMaxConsecutiveAux_eq :
    ∀ (l : List (Option Int)) (c m : Nat), c ≤ m →
      countMaxConsecutiveAux l c m = max m (max (c + leadOnes l) (maxRunLen l)) := by
  intro l
  induction l with
  | nil =>
    intro c m h
    simp only [countMaxConsecutiveAux, leadOnes, maxRunLen]
    omega
  | cons v rest ih =>
    intro c m h
    by_cases hv : v = some 1
    · rw [show countMaxConsecutiveAux (v :: rest) c m =
          countMaxConsecutiveAux rest (c + 1) (max m (c + 1)) from by
        simp [countMaxConsecutiveAux, hv]]
      rw [ih (c + 1) (max m (c + 1)) (le_max_right _ _)]
      have hle := leadOnes_le_maxRunLen rest
      simp only [leadOnes, maxRunLen, if_pos hv]
      omega
    · rw [show countMaxConsecutiveAux (v :: rest) c m =
          countMaxConsecutiveAux rest 0 m from by simp [countMaxConsecutiveAux, hv]]
      rw [ih 0 m (Nat.zero_le m)]
      have hle := leadOnes_le_maxRunLen rest
      simp only [leadOnes, maxRunLen, if_neg hv]
      omega

theorem countMaxConsecutiveList_eq_maxRunLen (l : List (Option Int)) :
    countMaxConsecutiveList l = maxRunLen l := by
  have h := countMaxConsecutiveAux_eq l 0 0 (le_refl 0)
  have hle := leadOnes_le_maxRunLen l
  unfold countMaxConsecutiveList
  omega

theorem allOnes_length_le_leadOnes :
    ∀ (m w : List (Option Int)), AllOnes m → m.length ≤ leadOnes (m ++ w) := by
  intro m
  induction m with
  | nil => intro w _; exact Nat.zero_le _
  | cons v m2 ih =>
    intro w hall
    have hv : v = some 1 := hall v (List.mem_cons_self v m2)
    have h2 : AllOnes m2 := fun x hx => hall x (List.mem_cons_of_mem v hx)
    simp only [List.cons_append, leadOnes, if_pos hv, List.length_cons]
    exact Nat.succ_le_succ (ih w h2)

theorem maxRunLen_cons_le (v : Option Int) (rest : List (Option Int)) :
    maxRunLen rest ≤ maxRunLen (v :: rest) := le_max_right _ _

theorem allOnes_seg_le_maxRunLen :
    ∀ (u m w : List (Option Int)), AllOnes m → m.length ≤ maxRunLen (u ++ m ++ w) := by
  intro u
  induction u with
  | nil =>
    intro m w hall
    calc m.length ≤ leadOnes (m ++ w) := allOnes_length_le_leadOnes m w hall
    _ ≤ maxRunLen (m ++ w) := leadOnes_le_maxRunLen _
    _ = maxRunLen ([] ++ m ++ w) := by simp
  | cons x u2 ih =>
    intro m w hall
    calc m.length ≤ maxRunLen (u2 ++ m ++ w) := ih m w hall
    _ ≤ maxRunLen (x :: (u2 ++ m ++ w)) := maxRunLen_cons_le _ _
    _ = maxRunLen ((x :: u2) ++ m ++ w) := by simp

theorem leadOnes_witness :
    ∀ l : List (Option Int), ∃ m w, l = m ++ w ∧ AllOnes m ∧ m.length = leadOnes l := by
  intro l
  induction l with
  | nil => exact ⟨[], [], rfl, fun v hv => absurd hv (List.not_mem_nil v), rfl⟩
  | cons v rest ih =>
    by_cases hv : v = some 1
    · obtain ⟨m, w, heq, hall, hlen⟩ := ih
      refine ⟨v :: m, w, by rw [List.cons_append, ← heq], ?_, ?_⟩
      · intro x hx
        rcases List.mem_cons.mp hx with h | h
        · rw [h]; exact hv
        · exact hall x h
      · simp only [List.length_cons, leadOnes, if_pos hv, hlen]
    · exact ⟨[], v :: rest, rfl, fun x hx => absurd hx (List.not_mem_nil x),
        by simp [leadOnes, hv]⟩

theorem maxRunLen_witness :
    ∀ l : List (Option Int), ∃ m, SegOf m l ∧ AllOnes m ∧ m.length = maxRunLen l := by
  intro l
  induction l with
  | nil =>
    exact ⟨[], ⟨[], [], rfl⟩, fun v hv => absurd hv (List.not_mem_nil v), rfl⟩
  | cons v rest ih =>
    by_cases hc : maxRunLen rest ≤ leadOnes (v :: rest)
    · obtain ⟨m, w, heq, hall, hlen⟩ := leadOnes_witness (v :: rest)
      refine ⟨m, ⟨[], w, by rw [heq]; rfl⟩, hall, ?_⟩
      rw [hlen]
      simp only [maxRunLen]
      omega
    · obtain ⟨m, ⟨u, w, heq⟩, hall, hlen⟩ := ih
      refine ⟨m, ⟨v :: u, w, by simp [heq]⟩, hall, ?_⟩
      rw [hlen]
      simp only [maxRunLen]
      omega

theorem countMaxConsecutiveAux_of_no_one :
    ∀ (l : List (Option Int)) (c m : Nat), (∀ v ∈ l, v ≠ some 1) →
      countMaxConsecutiveAux l c m = m := by
  intro l
  induction l with
  | nil => intro c m _; rfl
  | cons v rest ih =>
    intro c m hno
    have hv : ¬ v = some 1 := hno v (List.mem_cons_self v rest)
    rw [show countMaxConsecutiveAux (v :: rest) c m = countMaxConsecutiveAux rest 0 m from by
      simp [countMaxConsecutiveAux, hv]]
    exact ih 0 m fun x hx => hno x (List.mem_cons_of_mem v hx)

/-- analysis.py:119-131: per player, the achievement values of the
(player, datetime)-sorted played rows are aggregated with
`_count_max_consecutive_list`; this is the ranking before the final value sort and
`top_n` truncation. -/
def consecutiveGamesPre (df : List BoxRow) (gameType league : String)
    (hasPlayinCol : Bool) : List (String × Nat) :=
  let ds := sortRows (playedFilter df gameType league hasPlayinCol)
  (playerNamesOf ds).map fun p =>
    (p, countMaxConsecutiveList
      ((ds.filter fun r => r.playerName == p).map fun r => r.labelVal))

/-- analysis.py:87-133, `get_consecutive_games`: the per-player streaks sorted by
value descending and truncated to `top_n`. -/
def getConsecutiveGames (df : List BoxRow) (gameType league : String)
    (hasPlayinCol : Bool) (topN : Nat) : List (String × Nat) :=
  (List.insertionSort descNat (consecutiveGamesPre df gameType league hasPlayinCol)).take topN

theorem mem_consecutiveGamesPre {df : List BoxRow} {gameType league : String}
    {hasPlayinCol : Bool} {p : String} {v : Nat}
    (h : (p, v) ∈ consecutiveGamesPre df gameType league hasPlayinCol) :
    v = countMaxConsecutiveList
      (((sortRows (playedFilter df gameType league hasPlayinCol)).filter
        fun r => r.playerName == p).map fun r => r.labelVal) := by
  unfold consecutiveGamesPre at h
  obtain ⟨p2, _, heq⟩ := List.mem_map.mp h
  obtain ⟨h1, h2⟩ := Prod.mk.injEq .. ▸ heq
  rw [← h2, h1]

/-- C1: every entry of the ConsecutiveGames result gives, for its player, the
value of `_count_max_consecutive_list` on a chronologically sorted arrangement of
exactly the player's played, game-type-filtered rows (first conjunct); that value
is an upper bound for every all-ones contiguous segment (second conjunct) and is
attained by one (third conjunct), i.e. it is the maximum run length of consecutive
achieved games; and on the achievement sequence [1,1,0,1,1,1,0] it is 3 (fourth
conjunct). -/
theorem consecutiveGames_max_run_spec :
    (∀ (df : List BoxRow) (gameType league : String) (hasPlayinCol : Bool) (topN : Nat)
      (p : String) (v : Nat),
      (p, v) ∈ getConsecutiveGames df gameType league hasPlayinCol topN →
      ∃ g : List BoxRow,
        List.Perm g ((playedFilter df gameType league hasPlayinCol).filter
          fun r => r.playerName == p) ∧
        List.Sorted dtLe g ∧
        v = countMaxConsecutiveList (g.map fun r => r.labelVal)) ∧
    (∀ l m : List (Option Int), SegOf m l → AllOnes m →
      m.length ≤ countMaxConsecutiveList l) ∧
    (∀ l : List (Option Int), ∃ m, SegOf m l ∧ AllOnes m ∧
      m.length = countMaxConsecutiveList l) ∧
    countMaxConsecutiveList [some 1, some 1, some 0, some 1, some 1, some 1, some 0] = 3 := by
  refine ⟨?_, ?_, ?_, by decide⟩
  · intro df gameType league hasPlayinCol topN p v h
    have h2 : (p, v) ∈ consecutiveGamesPre df gameType league hasPlayinCol :=
      ((List.perm_insertionSort descNat _).mem_iff).mp (List.mem_of_mem_take h)
    refine ⟨(sortRows (playedFilter df gameType league hasPlayinCol)).filter
      (fun r => r.playerName == p), sortRows_filter_perm _ _,
      sortRows_filter_player_sorted _ _, mem_consecutiveGamesPre h2⟩
  · intro l m hseg hall
    obtain ⟨u, w, heq⟩ := hseg
    rw [countMaxConsecutiveList_eq_maxRunLen, heq]
    exact allOnes_seg_le_maxRunLen u m w hall
  · intro l
    rw [countMaxConsecutiveList_eq_maxRunLen]
    exact maxRunLen_witness l

/-- Five games of a synthetic player `A` with achievement values 1,1,0,1,1,1,0 in
chronological order, all regular-season NBA played games. -/
def streakDf : List BoxRow :=
  [⟨"A", 1, "NBA", some 1, some 0, some 0, some 2020, 1, some 20, some 1⟩,
   ⟨"A", 2, "NBA", some 1, some 0, some 0, some 2020, 1, some 20, some 1⟩,
   ⟨"A", 3, "NBA", some 1, some 0, some 0, some 2020, 1, some 20, some 0⟩,
   ⟨"A", 4, "NBA", some 1, some 0, some 0, some 2020, 1, some 20, some 1⟩,
   ⟨"A", 5, "NBA", some 1, some 0, some 0, some 2020, 1, some 20, some 1⟩,
   ⟨"A", 6, "NBA", some 1, some 0, some 0, some 2020, 1, some 20, some 1⟩,
   ⟨"A", 7, "NBA", some 1, some 0, some 0, some 2020, 1, some 20, some 0⟩]

/-- C1 witness: on the synthetic player with sequence [1,1,0,1,1,1,0] the computed
entry is ("A", 3), and the all-ones segment [1,1] of [1,1,0] has length at most
the computed maximum. -/
theorem consecutiveGames_max_run_spec_witness :
    (∃ g : List BoxRow,
      List.Perm g ((playedFilter streakDf "regular" "NBA" true).filter
        fun r => r.playerName == "A") ∧
      List.Sorted dtLe g ∧
      3 = countMaxConsecutiveList (g.map fun r => r.labelVal)) ∧
    (2 : Nat) ≤ countMaxConsecutiveList [some 1, some 1, some 0] :=
  ⟨consecutiveGames_max_run_spec.1 streakDf "regular" "NBA" true 10 "A" 3 (by decide),
   consecutiveGames_max_run_spec.2.1 [some 1, some 1, some 0] [some 1, some 1]
     ⟨[], [some 0], rfl⟩ (by decide)⟩

/-- C10: a player having at least one played, filtered game, all of whose
achievement values differ from 1, still appears in the ConsecutiveGames ranking
prior to `top_n` truncation, with streak value 0 (first conjunct), because the
per-player streak function returns 0 on any sequence containing no 1s (second
conjunct). -/
theorem consecutiveGames_zero_streak_retained :
    (∀ (df : List BoxRow) (gameType league : String) (hasPlayinCol : Bool) (p : String),
      (∃ r ∈ playedFilter df gameType league hasPlayinCol, r.playerName = p) →
      (∀ r ∈ playedFilter df gameType league hasPlayinCol,
        r.playerName = p → r.labelVal ≠ some 1) →
      (p, 0) ∈ consecutiveGamesPre df gameType league hasPlayinCol) ∧
    (∀ l : List (Option Int), (∀ v ∈ l, v ≠ some 1) → countMaxConsecutiveList l = 0) := by
  have hzero : ∀ l : List (Option Int), (∀ v ∈ l, v ≠ some 1) →
      countMaxConsecutiveList l = 0 := fun l hno =>
    countMaxConsecutiveAux_of_no_one l 0 0 hno
  refine ⟨?_, hzero⟩
  intro df gameType league hasPlayinCol p hex hno
  obtain ⟨r, hr, hrp⟩ := hex
  have hrs : r ∈ sortRows (playedFilter df gameType league hasPlayinCol) :=
    (sortRows_perm _).mem_iff.mpr hr
  have hp : p ∈ playerNamesOf (sortRows (playedFilter df gameType league hasPlayinCol)) :=
    mem_playerNamesOf.mpr ⟨r, hrs, hrp⟩
  have hval : countMaxConsecutiveList
      (((sortRows (playedFilter df gameType league hasPlayinCol)).filter
        fun r2 => r2.playerName == p).map fun r2 => r2.labelVal) = 0 := by
    apply hzero
    intro v hv
    obtain ⟨r2, hr2, hr2v⟩ := List.mem_map.mp hv
    obtain ⟨hr2mem, hr2p⟩ := List.mem_filter.mp hr2
    have hr2orig : r2 ∈ playedFilter df gameType league hasPlayinCol :=
      (sortRows_perm _).mem_iff.mp hr2mem
    rw [← hr2v]
    exact hno r2 hr2orig (by simpa using hr2p)
  have hgoal : (p, countMaxConsecutiveList
      (((sortRows (playedFilter df gameType league hasPlayinCol)).filter
        fun r2 => r2.playerName == p).map fun r2 => r2.labelVal)) ∈
      consecutiveGamesPre df gameType league hasPlayinCol :=
    List.mem_map_of_mem (fun p2 =>
      (p2, countMaxConsecutiveList
        (((sortRows (playedFilter df gameType league hasPlayinCol)).filter
          fun r2 => r2.playerName == p2).map fun r2 => r2.labelVal))) hp
  rw [hval] at hgoal
  exact hgoal

/-- Three played games of a player `B` who never achieves the indicator. -/
def zeroStreakDf : List BoxRow :=
  [⟨"B", 1, "NBA", some 1, some 0, some 0, some 2021, 1, some 5, some 0⟩,
   ⟨"B", 2, "NBA", some 1, some 0, some 0, some 2021, 1, some 7, some 0⟩,
   ⟨"B", 3, "NBA", some 1, some 0, some 0, some 2021, 1, some 9, some 0⟩]

/-- C10 witness: the all-zero player `B` appears in the pre-truncation ranking
with value 0, and the streak function returns 0 on [0,0,0]. -/
theorem consecutiveGames_zero_streak_retained_witness :
    ("B", 0) ∈ consecutiveGamesPre zeroStreakDf "regular" "NBA" true ∧
    countMaxConsecutiveList [some 0, some 0, some 0] = 0 :=
  ⟨consecutiveGames_zero_streak_retained.1 zeroStreakDf "regular" "NBA" true "B"
    ⟨⟨"B", 1, "NBA", some 1, some 0, some 0, some 2021, 1, some 5, some 0⟩,
      by decide, rfl⟩
    (by decide),
   consecutiveGames_zero_streak_retained.2 [some 0, some 0, some 0] (by decide)⟩

/-! ### GamesToReach (`NBAAnalyzer.get_games_to_reach`, analysis.py:169-207;
`NBAAnalyzerSQL.get_games_to_reach`, analysis_sql.py:162-211). -/

/-- analysis.py:184-191, `count_games_to_reach`: running cumulative sum (a null
value adds nothing) with the 1-based position returned as soon as the sum reaches
the threshold. -/
def countGamesToReachAux (threshold : Int) :
    List (Option Int) → Int → Nat → Option Nat
  | [], _, _ => none
  | v :: rest, cumsum, idx =>
    if threshold ≤ cumsum + v.getD 0 then some (idx + 1)
    else countGamesToReachAux threshold rest (cumsum + v.getD 0) (idx + 1)

/-- analysis.py:184-191: the per-player games-to-reach value. -/
def countGamesToReach (threshold : Int) (values : List (Option Int)) : Option Nat :=
  countGamesToReachAux threshold values 0 0

/-- Specification-side value: the sum of the first `k` values with null
contributing 0. -/
def prefixSumOpt : List (Option Int) → Nat → Int
  | _, 0 => 0
  | [], _ + 1 => 0
  | v :: rest, k + 1 => v.getD 0 + prefixSumOpt rest k

theorem countGamesToReachAux_some_iff :
    ∀ (vals : List (Option Int)) (t c : Int) (i n : Nat),
      countGamesToReachAux t vals c i = some n ↔
        ∃ k, 1 ≤ k ∧ k ≤ vals.length ∧ t ≤ c + prefixSumOpt vals k ∧
          (∀ j, 1 ≤ j → j < k → c + prefixSumOpt vals j < t) ∧ n = i + k := by
  intro vals
  induction vals with
  | nil =>
    intro t c i n
    simp only [countGamesToReachAux, List.length_nil]
    constructor
    · intro h
      exact Option.noConfusion h
    · rintro ⟨k, hk1, hk2, _⟩
      omega
  | cons v rest ih =>
    intro t c i n
    by_cases ht : t ≤ c + v.getD 0
    · rw [show countGamesToReachAux t (v :: rest) c i = some (i + 1) from by
        simp [countGamesToReachAux, ht]]
      constructor
      · intro h
        have hn : n = i + 1 := (Option.some.inj h).symm
        refine ⟨1, le_refl 1, by simp, ?_, ?_, hn⟩
        · simpa [prefixSumOpt] using ht
        · intro j hj1 hj2
          omega
      · rintro ⟨k, hk1, hk2, hreach, hmin, hn⟩
        rcases Nat.lt_or_ge 1 k with hk | hk
        · have h1 := hmin 1 (le_refl 1) hk
          simp only [prefixSumOpt] at h1
          omega
        · have hke : k = 1 := by omega
          subst hke
          simp [hn]
    · rw [show countGamesToReachAux t (v :: rest) c i =
          countGamesToReachAux t rest (c + v.getD 0) (i + 1) from by
        simp [countGamesToReachAux, ht]]
      rw [ih t (c + v.getD 0) (i + 1) n]
      constructor
      · rintro ⟨k, hk1, hk2, hreach, hmin, hn⟩
        refine ⟨k + 1, by omega, by simp; omega, ?_, ?_, by omega⟩
        · simp only [prefixSumOpt]
          omega
        · intro j hj1 hjlt
          obtain ⟨j2, rfl⟩ : ∃ j2, j = j2 + 1 := ⟨j - 1, by omega⟩
          rcases Nat.eq_zero_or_pos j2 with hj2 | hj2
          · subst hj2
            simp only [prefixSumOpt]
            omega
          · have hm := hmin j2 (by omega) (by omega)
            simp only [prefixSumOpt]
            omega
      · rintro ⟨k, hk1, hk2, hreach, hmin, hn⟩
        rcases Nat.lt_or_ge 1 k with hk | hk
        · obtain ⟨k2, rfl⟩ : ∃ k2, k = k2 + 1 := ⟨k - 1, by omega⟩
          simp only [prefixSumOpt] at hreach
          refine ⟨k2, by omega, by simp at hk2; omega, by omega, ?_, by omega⟩
          intro j hj1 hjlt
          have hm := hmin (j + 1) (by omega) (by omega)
          simp only [prefixSumOpt] at hm
          omega
        · have hke : k = 1 := by omega
          subst hke
          simp only [prefixSumOpt] at hreach
          omega

theorem countGamesToReach_some_iff (t : Int) (vals : List (Option Int)) (n : Nat) :
    countGamesToReach t vals = some n ↔
      1 ≤ n ∧ n ≤ vals.length ∧ t ≤ prefixSumOpt vals n ∧
        ∀ j, 1 ≤ j → j < n → prefixSumOpt vals j < t := by
  unfold countGamesToReach
  rw [countGamesToReachAux_some_iff]
  constructor
  · rintro ⟨k, h1, h2, h3, h4, h5⟩
    have hnk : n = k := by omega
    subst hnk
    exact ⟨h1, h2, by simpa using h3, fun j hj1 hj2 => by simpa using h4 j hj1 hj2⟩
  · rintro ⟨h1, h2, h3, h4⟩
    exact ⟨n, h1, h2, by simpa using h3,
      fun j hj1 hj2 => by simpa using h4 j hj1 hj2, by omega⟩

/-- analysis.py:193-205: per player the games-to-reach value of the
chronologically sorted played rows, players with a null value dropped, sorted
ascending by the value; this is the ranking before `top_n` truncation. -/
def gamesToReachPre (df : List BoxRow) (threshold : Int) (gameType league : String)
    (hasPlayinCol : Bool) : List (String × Nat) :=
  let ds := sortRows (playedFilter df gameType league hasPlayinCol)
  List.insertionSort ascNat
    ((playerNamesOf ds).filterMap fun p =>
      (countGamesToReach threshold
        ((ds.filter fun r => r.playerName == p).map fun r => r.labelVal)).map
        fun n => (p, n))

/-- analysis.py:169-207, `get_games_to_reach`: the ascending ranking truncated to
`top_n`. -/
def getGamesToReach (df : List BoxRow) (threshold : Int) (gameType league : String)
    (hasPlayinCol : Bool) (topN : Nat) : List (String × Nat) :=
  (gamesToReachPre df threshold gameType league hasPlayinCol).take topN

theorem mem_gamesToReachPre {df : List BoxRow} {threshold : Int}
    {gameType league : String} {hasPlayinCol : Bool} {p : String} {n : Nat}
    (h : (p, n) ∈ gamesToReachPre df threshold gameType league hasPlayinCol) :
    countGamesToReach threshold
      (((sortRows (playedFilter df gameType league hasPlayinCol)).filter
        fun r => r.playerName == p).map fun r => r.labelVal) = some n := by
  unfold gamesToReachPre at h
  have h2 := (List.perm_insertionSort ascNat _).mem_iff.mp h
  obtain ⟨p2, hp2, heq⟩ := List.mem_filterMap.mp h2
  cases hc : countGamesToReach threshold
      (((sortRows (playedFilter df gameType league hasPlayinCol)).filter
        fun r => r.playerName == p2).map fun r => r.labelVal) with
  | none =>
    rw [hc] at heq
    exact Option.noConfusion heq
  | some m =>
    rw [hc] at heq
    simp only [Option.map_some', Option.some.injEq, Prod.mk.injEq] at heq
    obtain ⟨he1, he2⟩ := heq
    subst he1
    subst he2
    exact hc

/-- C2: the per-player function returns `some n` exactly when `n` is the first
1-based position at which the running null-as-0 cumulative sum reaches the
threshold (first conjunct); every entry of the truncated GamesToReach result
carries that value for a chronologically sorted arrangement of the player's
played, filtered rows (second conjunct); a player whose cumulative sum never
reaches the threshold on any such arrangement is excluded (third conjunct); the
ranking is sorted ascending by the game count (fourth conjunct); and per-game
values [5, 8, 12, 20] with threshold 15 give position 3 (fifth conjunct). -/
theorem gamesToReach_first_threshold_spec :
    (∀ (t : Int) (vals : List (Option Int)) (n : Nat),
      countGamesToReach t vals = some n ↔
        1 ≤ n ∧ n ≤ vals.length ∧ t ≤ prefixSumOpt vals n ∧
          ∀ j, 1 ≤ j → j < n → prefixSumOpt vals j < t) ∧
    (∀ (df : List BoxRow) (t : Int) (gameType league : String) (hasPlayinCol : Bool)
      (topN : Nat) (p : String) (n : Nat),
      (p, n) ∈ getGamesToReach df t gameType league hasPlayinCol topN →
      ∃ g : List BoxRow,
        List.Perm g ((playedFilter df gameType league hasPlayinCol).filter
          fun r => r.playerName == p) ∧
        List.Sorted dtLe g ∧
        countGamesToReach t (g.map fun r => r.labelVal) = some n) ∧
    (∀ (df : List BoxRow) (t : Int) (gameType league : String) (hasPlayinCol : Bool)
      (p : String),
      (∀ g : List BoxRow,
        List.Perm g ((playedFilter df gameType league hasPlayinCol).filter
          fun r => r.playerName == p) →
        List.Sorted dtLe g →
        countGamesToReach t (g.map fun r => r.labelVal) = none) →
      p ∉ (gamesToReachPre df t gameType league hasPlayinCol).map Prod.fst) ∧
    (∀ (df : List BoxRow) (t : Int) (gameType league : String) (hasPlayinCol : Bool),
      List.Sorted ascNat (gamesToReachPre df t gameType league hasPlayinCol)) ∧
    countGamesToReach 15 [some 5, some 8, some 12, some 20] = some 3 := by
  refine ⟨countGamesToReach_some_iff, ?_, ?_, ?_, by decide⟩
  · intro df t gameType league hasPlayinCol topN p n h
    have h2 : (p, n) ∈ gamesToReachPre df t gameType league hasPlayinCol :=
      List.mem_of_mem_take h
    exact ⟨(sortRows (playedFilter df gameType league hasPlayinCol)).filter
      (fun r => r.playerName == p), sortRows_filter_perm _ _,
      sortRows_filter_player_sorted _ _, mem_gamesToReachPre h2⟩
  · intro df t gameType league hasPlayinCol p hnone hmem
    obtain ⟨pn, hmem2, hfst⟩ := List.mem_map.mp hmem
    obtain ⟨p2, n⟩ := pn
    have hp2 : p2 = p := hfst
    subst hp2
    have hsome := mem_gamesToReachPre hmem2
    have hzero := hnone
      ((sortRows (playedFilter df gameType league hasPlayinCol)).filter
        fun r => r.playerName == p2) (sortRows_filter_perm _ _)
      (sortRows_filter_player_sorted _ _)
    rw [hzero] at hsome
    exact Option.noConfusion hsome
  · intro df t gameType league hasPlayinCol
    unfold gamesToReachPre
    exact List.sorted_insertionSort ascNat _

/-- Four played games of a player `A` with per-game values 5, 8, 12, 20 in
chronological order. -/
def reachDf : List BoxRow :=
  [⟨"A", 1, "NBA", some 1, some 0, some 0, some 2020, 1, some 5, some 5⟩,
   ⟨"A", 2, "NBA", some 1, some 0, some 0, some 2020, 1, some 8, some 8⟩,
   ⟨"A", 3, "NBA", some 1, some 0, some 0, some 2020, 1, some 12, some 12⟩,
   ⟨"A", 4, "NBA", some 1, some 0, some 0, some 2020, 1, some 20, some 20⟩]

/-- C2 witness: on per-game values [5, 8, 12, 20] with threshold 15, player `A`
gets entry ("A", 3), and an absent player `Z` is excluded from the ranking. -/
theorem gamesToReach_first_threshold_spec_witness :
    (∃ g : List BoxRow,
      List.Perm g ((playedFilter reachDf "regular" "NBA" true).filter
        fun r => r.playerName == "A") ∧
      List.Sorted dtLe g ∧
      countGamesToReach 15 (g.map fun r => r.labelVal) = some 3) ∧
    "Z" ∉ (gamesToReachPre reachDf 15 "regular" "NBA" true).map Prod.fst :=
  ⟨gamesToReach_first_threshold_spec.2.1 reachDf 15 "regular" "NBA" true 10 "A" 3
    (by decide),
   gamesToReach_first_threshold_spec.2.2.1 reachDf 15 "regular" "NBA" true "Z"
    (fun g hperm _ => by
      have hnil : (playedFilter reachDf "regular" "NBA" true).filter
          (fun r => r.playerName == "Z") = [] := by decide
      rw [hnil] at hperm
      rw [hperm.eq_nil]
      rfl)⟩

/-! ### SeasonAchievementCount (`NBAAnalyzer.get_season_achievement_count`,
analysis.py:213-251; `NBAAnalyzerSQL.get_season_achievement_count`,
analysis_sql.py:217-255). -/

/-- analysis.py:224-228: the regular-season league-filtered played rows. -/
def seasonRegularData (df : List BoxRow) (league : String) : List BoxRow :=
  df.filter fun r => r.League == league && r.isRegular == some 1 && r.Played == 1

/-- analysis_sql.py:238-241: the SQL backend filters on `PTS IS NOT NULL` instead
of the `Played` flag. -/
def sqlSeasonRegularData (df : List BoxRow) (league : String) : List BoxRow :=
  df.filter fun r => r.League == league && r.isRegular == some 1 && r.PTS.isSome

/-- Polars `sum` / SQL `SUM(COALESCE(x, 0))` over a nullable column: null values
contribute nothing. -/
def optSum (l : List (Option Int)) : Int := (l.filterMap id).sum

/-- analysis.py:233-236 / analysis_sql.py:231-243: the per-(player, season) label
totals, one entry per distinct (playerName, seasonStartYear) key. -/
def seasonTotals (ds : List BoxRow) : List ((String × Option Int) × Int) :=
  ((ds.map fun r => (r.playerName, r.seasonStartYear)).dedup).map fun k =>
    (k, optSum ((ds.filter fun r =>
      r.playerName == k.1 && r.seasonStartYear == k.2).map fun r => r.labelVal))

/-- analysis.py:239-247: per player, the number of seasons whose total reaches the
threshold, computed as the sum of 0/1 season flags. -/
def qualCount (st : List ((String × Option Int) × Int)) (threshold : Int)
    (p : String) : Int :=
  ((st.filter fun kt => kt.1.1 == p).map fun kt =>
    if threshold ≤ kt.2 then (1 : Int) else 0).sum

/-- analysis.py:213-251 before the final sort/truncation: every player appearing
in the filtered data is mapped to their qualifying-season count - there is no
positivity filter in the Polars implementation. -/
def seasonAchievementPre (df : List BoxRow) (league : String) (threshold : Int) :
    List (String × Int) :=
  let st := seasonTotals (seasonRegularData df league)
  ((st.map fun kt => kt.1.1).dedup).map fun p => (p, qualCount st threshold p)

/-- analysis.py:244-249, `get_season_achievement_count`: sorted descending by the
count and truncated to `top_n`. -/
def getSeasonAchievementCount (df : List BoxRow) (league : String) (threshold : Int)
    (topN : Nat) : List (String × Int) :=
  (List.insertionSort descInt (seasonAchievementPre df league threshold)).take topN

/-- analysis_sql.py:217-255: the SQL backend additionally applies
`HAVING SUM(...) > 0`, excluding players with zero qualifying seasons. -/
def sqlSeasonAchievementPre (df : List BoxRow) (league : String) (threshold : Int) :
    List (String × Int) :=
  let st := seasonTotals (sqlSeasonRegularData df league)
  (((st.map fun kt => kt.1.1).dedup).map fun p => (p, qualCount st threshold p)).filter
    fun pc => decide (0 < pc.2)

theorem sum_map_ite_eq_countP {α : Type} (l : List α) (q : α → Prop) [DecidablePred q] :
    (l.map fun x => if q x then (1 : Int) else 0).sum =
      (l.countP fun x => decide (q x) : Nat) := by
  induction l with
  | nil => simp
  | cons x xs ih =>
    by_cases h : q x <;> simp [h, ih, List.countP_cons] <;> omega

theorem qualCount_eq_countP (st : List ((String × Option Int) × Int)) (t : Int)
    (p : String) :
    qualCount st t p =
      (st.countP fun kt => decide (t ≤ kt.2) && (kt.1.1 == p) : Nat) := by
  unfold qualCount
  rw [sum_map_ite_eq_countP, List.countP_filter]

theorem mem_seasonAchievementPre {df : List BoxRow} {league : String} {t : Int}
    {p : String} {c : Int} (h : (p, c) ∈ seasonAchievementPre df league t) :
    c = qualCount (seasonTotals (seasonRegularData df league)) t p := by
  unfold seasonAchievementPre at h
  obtain ⟨p2, _, heq⟩ := List.mem_map.mp h
  obtain ⟨h1, h2⟩ := Prod.mk.injEq .. ▸ heq
  rw [← h2, h1]

/-- A single regular-season played row of player `A` whose season total 5 is below
the threshold 10. -/
def zeroSeasonRow : BoxRow :=
  ⟨"A", 1, "NBA", some 1, some 0, some 0, some 2000, 1, some 5, some 5⟩

/-- C7 counterexample: with one season summing below the threshold, player `A` has
zero qualifying seasons yet appears in the final Polars SeasonAchievementCount
result with count 0 - the Polars implementation has no positivity filter; the SQL
backend's `HAVING` clause does exclude the player. -/
theorem seasonAchievement_zero_retained_counterexample :
    qualCount (seasonTotals (seasonRegularData [zeroSeasonRow] "NBA")) 10 "A" = 0 ∧
    ("A", 0) ∈ getSeasonAchievementCount [zeroSeasonRow] "NBA" 10 10 ∧
    sqlSeasonAchievementPre [zeroSeasonRow] "NBA" 10 = [] :=
  ⟨by decide, by decide, by decide⟩

/-- C7 amended: both backends group the regular-season rows by
(player, season-start-year), sum the label per season, count per player the
seasons reaching the threshold (first and second conjuncts give that count
characterization), and sort descending (fourth conjunct); the SQL backend excludes
players with zero qualifying seasons (second conjunct), but the in-memory backend
retains every player appearing in the filtered data, with count 0 when no season
qualifies (third conjunct). -/
theorem seasonAchievement_spec :
    (∀ (df : List BoxRow) (league : String) (t : Int) (p : String) (c : Int),
      (p, c) ∈ seasonAchievementPre df league t →
      c = ((seasonTotals (seasonRegularData df league)).countP
        fun kt => decide (t ≤ kt.2) && (kt.1.1 == p) : Nat)) ∧
    (∀ (df : List BoxRow) (league : String) (t : Int) (p : String) (c : Int),
      (p, c) ∈ sqlSeasonAchievementPre df league t →
      0 < c ∧ c = ((seasonTotals (sqlSeasonRegularData df league)).countP
        fun kt => decide (t ≤ kt.2) && (kt.1.1 == p) : Nat)) ∧
    (∀ (df : List BoxRow) (league : String) (t : Int) (p : String),
      (∃ r ∈ seasonRegularData df league, r.playerName = p) →
      p ∈ (seasonAchievementPre df league t).map Prod.fst) ∧
    (∀ (df : List BoxRow) (league : String) (t : Int) (topN : Nat),
      List.Sorted descInt (getSeasonAchievementCount df league t topN)) := by
  refine ⟨?_, ?_, ?_, ?_⟩
  · intro df league t p c h
    rw [mem_seasonAchievementPre h, qualCount_eq_countP]
  · intro df league t p c h
    unfold sqlSeasonAchievementPre at h
    obtain ⟨hmem, hpos⟩ := List.mem_filter.mp h
    refine ⟨by simpa using hpos, ?_⟩
    obtain ⟨p2, _, heq⟩ := List.mem_map.mp hmem
    obtain ⟨h1, h2⟩ := Prod.mk.injEq .. ▸ heq
    rw [← h2, h1, qualCount_eq_countP]
  · intro df league t p hex
    obtain ⟨r, hr, hrp⟩ := hex
    have hkey : (p, r.seasonStartYear) ∈
        ((seasonRegularData df league).map fun r2 => (r2.playerName, r2.seasonStartYear)).dedup :=
      List.mem_dedup.mpr (List.mem_map.mpr ⟨r, hr, by rw [hrp]⟩)
    have hst : ((p, r.seasonStartYear),
        optSum (((seasonRegularData df league).filter fun r2 =>
          r2.playerName == p && r2.seasonStartYear == r.seasonStartYear).map
          fun r2 => r2.labelVal)) ∈ seasonTotals (seasonRegularData df league) :=
      List.mem_map_of_mem _ hkey
    have hname : p ∈ ((seasonTotals (seasonRegularData df league)).map
        fun kt => kt.1.1).dedup :=
      List.mem_dedup.mpr (List.mem_map.mpr ⟨_, hst, rfl⟩)
    unfold seasonAchievementPre
    refine List.mem_map.mpr ⟨(p, qualCount (seasonTotals (seasonRegularData df league)) t p),
      List.mem_map.mpr ⟨p, hname, rfl⟩, rfl⟩
  · intro df league t topN
    exact List.Pairwise.sublist (List.take_sublist _ _)
      (List.sorted_insertionSort descInt _)

/-- A single regular-season played row of player `C` whose season total 50 reaches
the threshold 10. -/
def qualSeasonRow : BoxRow :=
  ⟨"C", 1, "NBA", some 1, some 0, some 0, some 2000, 1, some 50, some 50⟩

/-- C7 witness: the amended characterization at concrete inputs - player `A` with
a below-threshold season is retained with count 0 by the in-memory backend, and
player `C` with a qualifying season appears in the SQL result with positive
count 1. -/
theorem seasonAchievement_spec_witness :
    ((0 : Int) = ((seasonTotals (seasonRegularData [zeroSeasonRow] "NBA")).countP
      fun kt => decide ((10 : Int) ≤ kt.2) && (kt.1.1 == "A") : Nat)) ∧
    ((0 : Int) < 1 ∧ (1 : Int) =
      ((seasonTotals (sqlSeasonRegularData [qualSeasonRow] "NBA")).countP
        fun kt => decide ((10 : Int) ≤ kt.2) && (kt.1.1 == "C") : Nat)) ∧
    "A" ∈ (seasonAchievementPre [zeroSeasonRow] "NBA" 10).map Prod.fst :=
  ⟨seasonAchievement_spec.1 [zeroSeasonRow] "NBA" 10 "A" 0 (by decide),
   seasonAchievement_spec.2.1 [qualSeasonRow] "NBA" 10 "C" 1 (by decide),
   seasonAchievement_spec.2.2.1 [zeroSeasonRow] "NBA" 10 "A"
     ⟨zeroSeasonRow, by decide, rfl⟩⟩

end NbaLlm
